import Mathlib

/-!
Verification of the schema-field layer of `module/data/fields.mjs`.

The development shallowly embeds the JavaScript field classes
(`AdvancementField`, `AdvancementDataField`, `MappingField`, `FormulaField`)
over an inductive type of JavaScript runtime values.  Operations that can
throw are `Option`-valued, `none` standing for a thrown exception.  External
host collaborators (the Foundry utility functions, data-model descriptors and
the dice evaluator) are modelled from their documented contracts where noted.
-/

/-- JavaScript runtime values restricted to the shapes the field layer
handles: `undefined`, `null`, booleans, numbers, strings and plain objects.
An object is an ordered association list of string keys to values; as in a
JavaScript object, keys are expected to be distinct. -/
inductive JSValue where
  | undef
  | null
  | boolean (b : Bool)
  | num (n : Int)
  | str (s : String)
  | obj (fields : List (String × JSValue))
deriving Repr

/-- First-match association-list lookup, the reading of `container[key]`. -/
def lookupKey {α : Type} : List (String × α) → String → Option α
  | [], _ => none
  | (k', v) :: rest, k => if k' = k then some v else lookupKey rest k

/-- The keys of an object's field list, in order. -/
def keysOf {α : Type} (l : List (String × α)) : List String := l.map Prod.fst

/-- The JavaScript test `typeof v === "object"`: true for plain objects and
also for `null` (a JavaScript quirk central to the guards below). -/
def typeofIsObject : JSValue → Bool
  | .obj _ => true
  | .null => true
  | _ => false

/-- Whether the value is a plain object (`foundry.utils.getType(v) === "Object"`);
unlike `typeof`, this is false for `null`. -/
def isPlainObj : JSValue → Bool
  | .obj _ => true
  | _ => false

/-- Whether the value is `null` or `undefined` (the nullish values that `??`
coalesces over and on which property access throws a TypeError). -/
def isNullish : JSValue → Bool
  | .null => true
  | .undef => true
  | _ => false

/-- JavaScript truthiness test, as used by `other || {}`. -/
def isFalsy : JSValue → Bool
  | .undef => true
  | .null => true
  | .boolean b => !b
  | .num n => n = 0
  | .str s => s.isEmpty
  | .obj _ => false

/-- Modelled from the host API: `foundry.utils.isEmpty` is true for
`undefined`, `null`, and objects with no keys, and false for every
non-container value such as a string or number. -/
def isEmptyJS : JSValue → Bool
  | .undef => true
  | .null => true
  | .obj fs => fs.isEmpty
  | _ => false

/-- Property read `v[k]`.  Reading a property of `null` or `undefined` throws
a TypeError (`none`); reading a missing key of an object yields `undefined`;
reading a property of another primitive autoboxes and yields `undefined`. -/
def getProp : JSValue → String → Option JSValue
  | .null, _ => none
  | .undef, _ => none
  | .obj fs, k => some ((lookupKey fs k).getD .undef)
  | _, _ => some .undef

mutual
/-- Modelled from the host API: `foundry.utils.deepClone` rebuilds a plain
object node by node, returning every non-object leaf as is. -/
def deepClone : JSValue → JSValue
  | .obj fs => .obj (deepCloneFields fs)
  | v => v

/-- Clone of each entry of an object's field list. -/
def deepCloneFields : List (String × JSValue) → List (String × JSValue)
  | [] => []
  | (k, v) :: rest => (k, deepClone v) :: deepCloneFields rest
end

mutual
/-- Modelled from the host API: the merge of one value of `other` over one
value of `original` under `foundry.utils.mergeObject` with the default
options (`recursive`, `overwrite`, `insertKeys`): two plain objects are
merged recursively, any other pair is overwritten by the `other` value. -/
def mergeVal : JSValue → JSValue → JSValue
  | .obj a, .obj b => .obj (mergeInto a b)
  | _, w => w
termination_by _ w => (sizeOf w, 0, 0)

/-- Merge every entry of `b` into `a`, in `b`'s order, as the host's
`mergeObject` iterates the entries of `other`. -/
def mergeInto (a : List (String × JSValue)) : List (String × JSValue) → List (String × JSValue)
  | [] => a
  | (k, w) :: rest => mergeInto (setKeyMerge a k w) rest
termination_by l => (sizeOf l, 2, 0)

/-- Merge a single key update into a field list: an existing entry for the
key is merged with `mergeVal`, a new key is appended. -/
def setKeyMerge : List (String × JSValue) → String → JSValue → List (String × JSValue)
  | [], k, w => [(k, w)]
  | (k', v) :: rest, k, w =>
      if k' = k then (k', mergeVal v w) :: rest
      else (k', v) :: setKeyMerge rest k w
termination_by a _ w => (sizeOf w, 1, sizeOf a)
end

/-- Plain JavaScript property assignment `container[k] = v` on an object's
field list: overwrites an existing entry, appends a new key. -/
def setKeyAssign : List (String × JSValue) → String → JSValue → List (String × JSValue)
  | [], k, v => [(k, v)]
  | (k', w) :: rest, k, v =>
      if k' = k then (k', v) :: rest
      else (k', w) :: setKeyAssign rest k v

/-- Modelled from the host API: `foundry.utils.mergeObject(original, other,
{inplace})`.  A falsy `other` is replaced by `{}`; if either argument is then
not an object the call throws (`none`).  The result pairs the merged value
with the post-call contents of the object bound to `original`: with
`inplace: true` the original object is mutated to the merged contents, with
`inplace: false` the merge happens on a deep clone and the original is left
unchanged. -/
def mergeObjectState (original other : JSValue) (inplace : Bool) :
    Option (JSValue × JSValue) :=
  let other' := if isFalsy other then JSValue.obj [] else other
  match original, other' with
  | .obj a, .obj b =>
      let merged := JSValue.obj (mergeInto a b)
      if inplace then some (merged, merged) else some (merged, .obj a)
  | _, _ => none

/-- The options bag threaded through cleaning; only the `partial` flag is
inspected by this layer (field name capitalised to `isPartial`). -/
structure CleanOptions where
  isPartial : Bool
deriving Repr

/-- Errors thrown by the validation layer: a plain `Error` with a message, or
a `ModelValidationError` carrying a per-key map of underlying errors. -/
inductive JSError where
  | err (msg : String)
  | modelValidation (errors : List (String × JSError))
deriving Repr

/-- Modelled from the spec: a sub-schema descriptor (external collaborator),
exposing a static `cleanData(value, options)` returning the cleaned plain data
object, and a constructor `(rawValue, {parent, ...options})` producing a typed
instance.  Both are total: delegated errors are out of scope of the claims
settled here. -/
structure AdvModel where
  cleanData : JSValue → CleanOptions → List (String × JSValue)
  construct : JSValue → JSValue

/-- The process-wide advancement type registry `CONFIG.DND5E.advancementTypes`,
keyed by discriminator string. -/
abbrev AdvRegistry := List (String × AdvModel)

/-- Embedding of `AdvancementField.getModelForType`: registry lookup of the
discriminator, `null` (here `none`) when absent.  A non-string discriminator
is never a registry key. -/
def AdvancementField.getModelForType (reg : AdvRegistry) : JSValue → Option AdvModel
  | .str s => lookupKey reg s
  | _ => none

/-- Embedding of `AdvancementField._cleanType`: a value whose `typeof` is not
`"object"` is replaced by `{}` (note `typeof null === "object"`, so `null`
survives the guard); the discriminator `value.type` is then read — a throwing
read on `null` — and cleaning is delegated to a registered model or the value
is returned unchanged. -/
def AdvancementField.cleanType (reg : AdvRegistry) (opts : CleanOptions)
    (value : JSValue) : Option JSValue :=
  let v := if typeofIsObject value then value else JSValue.obj []
  match getProp v "type" with
  | none => none
  | some d =>
    match AdvancementField.getModelForType reg d with
    | some cls => some (.obj (cls.cleanData v opts))
    | none => some v

/-- Embedding of `AdvancementField.initialize` (initializeVal here): reads `value.type` with no
guard (throwing on `null`/`undefined`), constructs a registered model when
resolved and deep-clones the value otherwise. -/
def AdvancementField.initializeVal (reg : AdvRegistry) (value : JSValue) :
    Option JSValue :=
  match getProp value "type" with
  | none => none
  | some d =>
    match AdvancementField.getModelForType reg d with
    | some cls => some (cls.construct value)
    | none => some (deepClone value)

/-- The metadata of the owning advancement type: per-field-name data models
and per-field-name declared default objects. -/
structure AdvMetadata where
  dataModels : List (String × AdvModel)
  defaults : List (String × JSValue)

/-- Embedding of `AdvancementDataField.getModel`: the data model registered in
the owning advancement type's metadata under this field's name. -/
def AdvancementDataField.getModel (meta : AdvMetadata) (name : String) :
    Option AdvModel :=
  lookupKey meta.dataModels name

/-- Embedding of `AdvancementDataField.getDefaults`: the defaults object
registered under this field's name, or `{}` when absent.  The returned object
is the shared metadata object itself, not a copy. -/
def AdvancementDataField.getDefaults (meta : AdvMetadata) (name : String) :
    JSValue :=
  (lookupKey meta.defaults name).getD (.obj [])

/-- Embedding of `AdvancementDataField._cleanType`, instrumented to also
return the post-call contents of the shared defaults template.  The non-object
guard is the same `typeof` test as `AdvancementField._cleanType`; cleaning is
delegated to a registered model, returned unchanged under the `partial`
option, and otherwise merged over the declared defaults with
`mergeObject(defaults, value, {inplace: false})`. -/
def AdvancementDataField.cleanTypeState (meta : AdvMetadata) (name : String)
    (value : JSValue) (opts : CleanOptions) : Option (JSValue × JSValue) :=
  let dflts := AdvancementDataField.getDefaults meta name
  let v := if typeofIsObject value then value else JSValue.obj []
  match AdvancementDataField.getModel meta name with
  | some cls => some (.obj (cls.cleanData v opts), dflts)
  | none =>
    if opts.isPartial then some (v, dflts)
    else mergeObjectState dflts v false

/-- The value computed by `AdvancementDataField._cleanType`, dropping the
defaults-template state. -/
def AdvancementDataField.cleanType (meta : AdvMetadata) (name : String)
    (value : JSValue) (opts : CleanOptions) : Option JSValue :=
  (AdvancementDataField.cleanTypeState meta name value opts).map Prod.fst

/-- Embedding of `AdvancementDataField.initialize` (initializeVal here): constructs the registered
model or deep-clones the value.  No property of the value is read, so no
operation in the body can throw: the result is always `some`. -/
def AdvancementDataField.initializeVal (meta : AdvMetadata) (name : String)
    (value : JSValue) : Option JSValue :=
  match AdvancementDataField.getModel meta name with
  | some cls => some (cls.construct value)
  | none => some (deepClone value)

/-- An embedded child field definition as `MappingField` consumes it: its
`clean`, `validate` (returning the validation failure, if any), the value of
its `getInitialValue()` and its `initialize`.  The child field is an external
collaborator here (any Foundry `DataField`); its operations are pure
functions over values. -/
structure DataFieldModel where
  clean : JSValue → CleanOptions → JSValue
  validate : JSValue → CleanOptions → Option JSError
  getInitialValue : JSValue
  initializeVal : JSValue → JSValue

/-- A `MappingField` configuration: the embedded child field definition, the
optional `initialKeys` list, the optional per-key `initialValue` producer
callback, and the field's own declared initial value (what
`super.getInitialValue(data)` evaluates to; `{}` for a plain `ObjectField`). -/
structure MappingFieldModel where
  model : DataFieldModel
  initialKeys : Option (List String)
  initialValue : Option (String → JSValue → JSValue)
  initial : JSValue

/-- Embedding of `MappingField._cleanType` (fields.mjs lines 194-197): the
source runs `Object.values(value).forEach(v => this.model.clean(v, options))`
and then returns `value`.  Each per-entry result of `model.clean` is
discarded, so with a pure child field every entry of the mapping is returned
unchanged. -/
def MappingField.cleanType (m : DataFieldModel) (fs : List (String × JSValue))
    (opts : CleanOptions) : List (String × JSValue) :=
  let _ := fs.map (fun p => m.clean p.2 opts)
  fs

/-- Embedding of `MappingField._validateValues`: validate each entry's value
against the child field definition and collect the failures keyed by the
entry's key, in entry order. -/
def MappingField.validateValues (m : DataFieldModel)
    (fs : List (String × JSValue)) (opts : CleanOptions) :
    List (String × JSError) :=
  fs.filterMap (fun p => (m.validate p.2 opts).map (fun e => (p.1, e)))

/-- Embedding of `MappingField._validateType`: throw `Error("must be an
Object")` unless `getType(value) === "Object"`, else collect per-key failures
and throw a `ModelValidationError` carrying them when any exist. -/
def MappingField.validateType (m : DataFieldModel) (value : JSValue)
    (opts : CleanOptions) : Option JSError :=
  match value with
  | .obj fs =>
    let errors := MappingField.validateValues m fs opts
    if errors.isEmpty then none else some (.modelValidation errors)
  | _ => some (.err "must be an Object")

/-- The value seeded for one configured initial key:
`this.initialValue?.(key, modelInitial) ?? modelInitial`, the child field's
own initial value unless a configured producer callback returns a
non-nullish replacement. -/
def MappingField.seedValue (f : MappingFieldModel) (k : String) : JSValue :=
  let modelInitial := f.model.getInitialValue
  match f.initialValue with
  | none => modelInitial
  | some g =>
    let r := g k modelInitial
    if isNullish r then modelInitial else r

/-- Embedding of `MappingField.getInitialValue`: return the declared initial
value untouched when `initialKeys` is not configured or the initial value is
non-empty; otherwise assign one seeded entry per configured key, in list
order, into the (empty) initial object.  Assigning a property onto an empty
non-object initial value (`null`/`undefined`) throws in strict mode
(`none`). -/
def MappingField.getInitialValue (f : MappingFieldModel) : Option JSValue :=
  match f.initialKeys with
  | none => some f.initial
  | some keys =>
    if isEmptyJS f.initial = false then some f.initial
    else match f.initial with
      | .obj fs =>
        some (.obj (keys.foldl
          (fun acc k => setKeyAssign acc k (MappingField.seedValue f k)) fs))
      | _ => none

/-- Embedding of `MappingField.initialize` (initializeVal here): a falsy value is returned
unchanged, otherwise a fresh object is built whose entries are the child
field's `initialize` of each raw entry. -/
def MappingField.initializeVal (m : DataFieldModel) (value : JSValue) : JSValue :=
  if isFalsy value then value
  else match value with
    | .obj fs => .obj (fs.map (fun p => (p.1, m.initializeVal p.2)))
    | v => v

/-- Modelled from the spec: the external Formula Evaluator collaborator.  A
parsed dice/arithmetic expression (`new Roll(value)` of the formula string):
numeric literals, dice terms, attribute references (`@path`, which the parse
replaces with the data value, `0` when missing) and arithmetic nodes. -/
inductive RollTerm where
  | num (n : Int)
  | dice (n faces : Nat)
  | ref (path : String)
  | add (a b : RollTerm)
  | sub (a b : RollTerm)
deriving Repr, DecidableEq

/-- Whether the parsed expression contains a dice term anywhere. -/
def containsDice : RollTerm → Bool
  | .num _ => false
  | .dice _ _ => true
  | .ref _ => false
  | .add a b => containsDice a || containsDice b
  | .sub a b => containsDice a || containsDice b

/-- Modelled from the spec: `roll.isDeterministic`, true exactly when the
parsed expression contains no randomness (no dice term). -/
def isDeterministicRoll (r : RollTerm) : Bool := !containsDice r

/-- Modelled from the spec: `Roll.safeEval`, the side-effect-free evaluator
restricted to safe arithmetic.  Dice terms are not valid input for it
(`none`); references were already replaced at parse time, a missing one by
`0`. -/
def safeEval : RollTerm → Option Int
  | .num n => some n
  | .dice _ _ => none
  | .ref _ => some 0
  | .add a b => do pure ((← safeEval a) + (← safeEval b))
  | .sub a b => do pure ((← safeEval a) - (← safeEval b))

/-- Embedding of `FormulaField._validateType` over the parsed formula: when
the field is configured deterministic, throw `Error("must not contain dice
terms")` if the roll is not deterministic, then require `Roll.safeEval` to
succeed; otherwise a full (possibly random) evaluation of a well-formed
expression succeeds and validation passes. -/
def FormulaField.validateType (deterministic : Bool) (roll : RollTerm) :
    Option JSError :=
  if deterministic then
    if isDeterministicRoll roll = false then
      some (.err "must not contain dice terms")
    else
      match safeEval roll with
      | none => some (.err "formula evaluation failed")
      | some _ => none
  else none

/-- The numeric value of a decimal digit character, if it is one. -/
def digitVal (c : Char) : Option Nat :=
  if 48 ≤ c.toNat ∧ c.toNat ≤ 57 then some (c.toNat - 48) else none

/-- Decimal parse of a character list onto an accumulator. -/
def parseNatChars : List Char → Nat → Option Nat
  | [], acc => some acc
  | c :: rest, acc =>
    match digitVal c with
    | some d => parseNatChars rest (acc * 10 + d)
    | none => none

/-- Integer reading of a decimal string, `none` when empty or non-numeric. -/
def strToIntJS (s : String) : Option Int :=
  match s.data with
  | [] => none
  | cs => (parseNatChars cs 0).map Int.ofNat

/-- A concrete integer-coercing leaf field for test witnesses: `clean`
coerces numeric strings to numbers, `validate` accepts numbers only. -/
def intCoerceField : DataFieldModel where
  clean := fun v _ =>
    match v with
    | .str s => match strToIntJS s with
      | some n => .num n
      | none => v
    | w => w
  validate := fun v _ =>
    match v with
    | .num _ => none
    | _ => some (.err "must be an integer")
  getInitialValue := .num 0
  initializeVal := fun v => v

/-- A concrete advancement data model for test witnesses. -/
def advModel0 : AdvModel where
  cleanData := fun _ _ => [("cleaned", .boolean true)]
  construct := fun v => .obj [("instanceOf", v)]

/-- A registry holding only the discriminator `"grant"`. -/
def reg0 : AdvRegistry := [("grant", advModel0)]

/-- Default clean options: not a partial update. -/
def opts0 : CleanOptions := { isPartial := false }

/-- Metadata for witnesses: no data model registered, defaults declaring
`x = 1` for the field named `"value"`. -/
def meta0 : AdvMetadata where
  dataModels := []
  defaults := [("value", .obj [("x", .num 1)])]

/-- Metadata for witnesses: a data model registered for `"value"` and no
defaults. -/
def metaM : AdvMetadata where
  dataModels := [("value", advModel0)]
  defaults := []

/-- A mapping field over the integer-coercing leaf with two configured
initial keys and no producer callback. -/
def mapField0 : MappingFieldModel where
  model := intCoerceField
  initialKeys := some ["str", "dex"]
  initialValue := none
  initial := .obj []

/-- Clean options for a partial update. -/
def optsP : CleanOptions := { isPartial := true }

/-- A raw advancement object whose discriminator is not registered. -/
def fs0 : List (String × JSValue) := [("type", .str "mystery"), ("lvl", .num 2)]

/-- A mapping field with configured initial keys but a non-empty declared
initial value. -/
def mapField1 : MappingFieldModel where
  model := intCoerceField
  initialKeys := some ["a"]
  initialValue := none
  initial := .obj [("z", .num 9)]

/-- A mapping field with no configured initial keys. -/
def mapField2 : MappingFieldModel where
  model := intCoerceField
  initialKeys := none
  initialValue := none
  initial := .obj []

/-- The merge of an optional original value with an incoming value: the
incoming value when the key was absent, otherwise `mergeVal` of the two. -/
def mergeStep (o : Option JSValue) (w : JSValue) : JSValue :=
  match o with
  | some v => mergeVal v w
  | none => w

/-! Helper lemmas about the value model. -/

mutual
theorem deepClone_eq : (v : JSValue) → deepClone v = v
  | .undef => rfl
  | .null => rfl
  | .boolean _ => rfl
  | .num _ => rfl
  | .str _ => rfl
  | .obj fs => by rw [deepClone, deepCloneFields_eq fs]

theorem deepCloneFields_eq : (l : List (String × JSValue)) → deepCloneFields l = l
  | [] => rfl
  | (k, v) :: rest => by rw [deepCloneFields, deepClone_eq v, deepCloneFields_eq rest]
end

theorem lookupKey_eq_none {α : Type} (l : List (String × α)) (k : String)
    (h : k ∉ keysOf l) : lookupKey l k = none := by
  induction l with
  | nil => rfl
  | cons p rest ih =>
    obtain ⟨k', v⟩ := p
    simp only [keysOf, List.map_cons, List.mem_cons, not_or] at h
    simp only [lookupKey]
    rw [if_neg (fun e => h.1 e.symm)]
    exact ih h.2

theorem lookupKey_append {α : Type} (a b : List (String × α)) (k : String) :
    lookupKey (a ++ b) k =
      match lookupKey a k with
      | some v => some v
      | none => lookupKey b k := by
  induction a with
  | nil => simp [lookupKey]
  | cons p rest ih =>
    obtain ⟨k', v⟩ := p
    by_cases h : k' = k
    · simp [lookupKey, h]
    · simp [lookupKey, h, ih]

theorem lookupKey_setKeyMerge (a : List (String × JSValue)) (k : String)
    (w : JSValue) (k' : String) :
    lookupKey (setKeyMerge a k w) k' =
      if k = k' then some (mergeStep (lookupKey a k) w) else lookupKey a k' := by
  induction a with
  | nil => simp [setKeyMerge, lookupKey, mergeStep]
  | cons p rest ih =>
    obtain ⟨k0, v0⟩ := p
    by_cases h0 : k0 = k
    · subst h0
      by_cases h1 : k0 = k'
      · subst h1
        simp [setKeyMerge, lookupKey, mergeStep]
      · simp [setKeyMerge, lookupKey, h1, mergeStep]
    · by_cases h1 : k0 = k'
      · subst h1
        have h2 : ¬ k = k0 := fun e => h0 e.symm
        simp [setKeyMerge, lookupKey, h0, h2, ih]
      · simp [setKeyMerge, lookupKey, h0, h1, ih]

theorem lookupKey_mergeInto (b : List (String × JSValue)) :
    ∀ (a : List (String × JSValue)) (k : String), (keysOf b).Nodup →
      lookupKey (mergeInto a b) k =
        match lookupKey b k with
        | some w => some (mergeStep (lookupKey a k) w)
        | none => lookupKey a k := by
  induction b with
  | nil =>
    intro a k _
    simp [mergeInto, lookupKey]
  | cons p rest ih =>
    intro a k hnd
    obtain ⟨k0, w0⟩ := p
    simp only [keysOf, List.map_cons, List.nodup_cons] at hnd
    rw [mergeInto, ih _ k hnd.2]
    by_cases h1 : k0 = k
    · subst h1
      have hr : lookupKey rest k0 = none := lookupKey_eq_none rest k0 hnd.1
      simp [lookupKey, hr, lookupKey_setKeyMerge]
    · have h2 : ¬ k = k0 := fun e => h1 e.symm
      simp [lookupKey, h1, h2, lookupKey_setKeyMerge]

theorem setKeyAssign_fresh (a : List (String × JSValue)) (k : String) (v : JSValue)
    (h : lookupKey a k = none) : setKeyAssign a k v = a ++ [(k, v)] := by
  induction a with
  | nil => rfl
  | cons p rest ih =>
    obtain ⟨k', w⟩ := p
    by_cases h0 : k' = k
    · simp [lookupKey, h0] at h
    · simp only [lookupKey, if_neg h0] at h
      simp [setKeyAssign, h0, ih h]

theorem foldl_setKeyAssign (g : String → JSValue) :
    ∀ (ks : List String) (acc : List (String × JSValue)),
      ks.Nodup → (∀ k ∈ ks, lookupKey acc k = none) →
      ks.foldl (fun a k => setKeyAssign a k (g k)) acc
        = acc ++ ks.map (fun k => (k, g k)) := by
  intro ks
  induction ks with
  | nil =>
    intro acc _ _
    simp
  | cons k0 rest ih =>
    intro acc hnd hfresh
    simp only [List.foldl_cons, List.map_cons]
    rw [setKeyAssign_fresh acc k0 (g k0) (hfresh k0 (by simp))]
    rw [ih (acc ++ [(k0, g k0)]) (List.nodup_cons.mp hnd).2 ?_]
    · simp
    · intro k hk
      rw [lookupKey_append]
      have h1 : lookupKey acc k = none := hfresh k (by simp [hk])
      have h2 : ¬ k0 = k := fun e => (List.nodup_cons.mp hnd).1 (e ▸ hk)
      simp [h1, lookupKey, h2]

theorem keysOf_validateValues (m : DataFieldModel) (opts : CleanOptions)
    (fs : List (String × JSValue)) :
    keysOf (MappingField.validateValues m fs opts)
      = keysOf (fs.filter fun p => (m.validate p.2 opts).isSome) := by
  induction fs with
  | nil => rfl
  | cons p rest ih =>
    cases hv : m.validate p.2 opts with
    | none =>
      simp [MappingField.validateValues, List.filterMap_cons, hv, List.filter_cons,
        keysOf] at ih ⊢
      exact ih
    | some e =>
      simp [MappingField.validateValues, List.filterMap_cons, hv, List.filter_cons,
        keysOf] at ih ⊢
      exact ih

theorem validateValues_eq_nil_iff (m : DataFieldModel) (opts : CleanOptions)
    (fs : List (String × JSValue)) :
    MappingField.validateValues m fs opts = [] ↔
      ∀ p ∈ fs, m.validate p.2 opts = none := by
  simp [MappingField.validateValues, List.filterMap_eq_nil_iff, Option.map_eq_none']

theorem advInit_obj_isSome (reg : AdvRegistry) (gs : List (String × JSValue)) :
    (AdvancementField.initializeVal reg (.obj gs)).isSome = true := by
  simp only [AdvancementField.initializeVal, getProp]
  cases AdvancementField.getModelForType reg ((lookupKey gs "type").getD .undef) <;> simp

theorem advDataInit_isSome (meta : AdvMetadata) (name : String) (v : JSValue) :
    (AdvancementDataField.initializeVal meta name v).isSome = true := by
  simp only [AdvancementDataField.initializeVal]
  cases AdvancementDataField.getModel meta name <;> simp

theorem advCleanType_obj (reg : AdvRegistry) (opts : CleanOptions) (v c : JSValue)
    (h : AdvancementField.cleanType reg opts v = some c) : ∃ gs, c = .obj gs := by
  have main : ∀ fs : List (String × JSValue),
      AdvancementField.cleanType reg opts (.obj fs) = some c → ∃ gs, c = .obj gs := by
    intro fs hf
    simp only [AdvancementField.cleanType, typeofIsObject, if_pos, getProp] at hf
    cases hm : AdvancementField.getModelForType reg ((lookupKey fs "type").getD .undef) with
    | some cls =>
      rw [hm] at hf
      exact ⟨_, (Option.some.inj hf).symm⟩
    | none =>
      rw [hm] at hf
      exact ⟨fs, (Option.some.inj hf).symm⟩
  cases v with
  | undef => exact main [] h
  | null => simp [AdvancementField.cleanType, typeofIsObject, getProp] at h
  | boolean b => exact main [] h
  | num n => exact main [] h
  | str s => exact main [] h
  | obj fs => exact main fs h

/-! Claim theorems. -/

/-- C1: for a raw object whose `type` discriminator resolves to no registered
advancement model, `AdvancementField._cleanType` returns the raw object with
its keys and values unchanged, and `AdvancementField.initialize` returns the
deep copy `deepClone` of the raw value — a node-by-node rebuild of the object
tree — which is content-equal to the original. -/
theorem advField_unresolved_passthrough_and_deepcopy
    (reg : AdvRegistry) (opts : CleanOptions) (fs : List (String × JSValue))
    (h : AdvancementField.getModelForType reg ((lookupKey fs "type").getD .undef) = none) :
    AdvancementField.cleanType reg opts (.obj fs) = some (.obj fs) ∧
    AdvancementField.initializeVal reg (.obj fs) = some (deepClone (.obj fs)) ∧
    deepClone (.obj fs) = .obj fs := by
  refine ⟨?_, ?_, deepClone_eq _⟩
  · simp [AdvancementField.cleanType, typeofIsObject, getProp, h]
  · simp [AdvancementField.initializeVal, getProp, h]

/-- Witness for C1 at the concrete unregistered raw object `fs0`. -/
theorem advField_unresolved_passthrough_and_deepcopy_witness :
    AdvancementField.getModelForType reg0 ((lookupKey fs0 "type").getD .undef) = none ∧
    AdvancementField.cleanType reg0 opts0 (.obj fs0) = some (.obj fs0) ∧
    AdvancementField.initializeVal reg0 (.obj fs0) = some (deepClone (.obj fs0)) ∧
    deepClone (.obj fs0) = .obj fs0 := by
  have h : AdvancementField.getModelForType reg0 ((lookupKey fs0 "type").getD .undef) = none := by
    simp [AdvancementField.getModelForType, reg0, fs0, lookupKey]
  have main := advField_unresolved_passthrough_and_deepcopy reg0 opts0 fs0 h
  exact ⟨h, main.1, main.2.1, main.2.2⟩

/-- C8 counterexample: cleaning `null` does not replace it with an empty
object — `AdvancementField._cleanType(null)` throws on the discriminator read
(`typeof null === "object"` lets `null` through the guard), unlike cleaning
`{}` which succeeds. -/
theorem advField_clean_null_throws_counterexample :
    AdvancementField.cleanType [] opts0 .null = none ∧
    AdvancementField.cleanType [] opts0 .null
      ≠ AdvancementField.cleanType [] opts0 (.obj []) := by
  refine ⟨rfl, ?_⟩
  simp [AdvancementField.cleanType, typeofIsObject, getProp,
    AdvancementField.getModelForType, lookupKey]

/-- C8 (amended): a raw value whose JavaScript `typeof` is not `"object"` —
undefined, booleans, numbers, strings — is replaced by an empty object before
discriminator resolution in both `AdvancementField._cleanType` and
`AdvancementDataField._cleanType`; `null`, whose `typeof` is `"object"`, is
not replaced, and `AdvancementField._cleanType(null)` throws a TypeError. -/
theorem advField_clean_nonobject_guard_amended
    (reg : AdvRegistry) (meta : AdvMetadata) (name : String) (opts : CleanOptions)
    (v : JSValue) (h : typeofIsObject v = false) :
    AdvancementField.cleanType reg opts v
      = AdvancementField.cleanType reg opts (.obj []) ∧
    AdvancementDataField.cleanType meta name v opts
      = AdvancementDataField.cleanType meta name (.obj []) opts ∧
    AdvancementField.cleanType reg opts .null = none := by
  have hv : (if typeofIsObject v = true then v else JSValue.obj []) = JSValue.obj [] := by
    rw [h]
    simp
  refine ⟨?_, ?_, rfl⟩
  · simp [AdvancementField.cleanType, hv]
  · simp [AdvancementDataField.cleanType, AdvancementDataField.cleanTypeState, hv]

/-- Witness for the amended C8 at the concrete non-object raw value `7`. -/
theorem advField_clean_nonobject_guard_amended_witness :
    typeofIsObject (.num 7) = false ∧
    AdvancementField.cleanType reg0 opts0 (.num 7)
      = AdvancementField.cleanType reg0 opts0 (.obj []) ∧
    AdvancementDataField.cleanType meta0 "value" (.num 7) opts0
      = AdvancementDataField.cleanType meta0 "value" (.obj []) opts0 ∧
    AdvancementField.cleanType reg0 opts0 .null = none := by
  have main := advField_clean_nonobject_guard_amended reg0 meta0 "value" opts0 (.num 7) rfl
  exact ⟨rfl, main.1, main.2.1, main.2.2⟩

/-- C10: `AdvancementField.initialize` applied to `null` or `undefined`
throws — the TypeError of reading the discriminator property `type` — rather
than returning the value, a passthrough or a clone. -/
theorem advField_initializeVal_nullish_throws (reg : AdvRegistry) :
    AdvancementField.initializeVal reg .null = none ∧
    AdvancementField.initializeVal reg .undef = none :=
  ⟨rfl, rfl⟩

/-- C7: any value returned without error by `_cleanType` can be initialized
without throwing, for both advancement field variants, whether or not the
discriminator resolves to a registered model. -/
theorem advField_initializeVal_after_clean_total
    (reg : AdvRegistry) (meta : AdvMetadata) (name : String) (opts : CleanOptions)
    (v w c c' : JSValue)
    (h1 : AdvancementField.cleanType reg opts v = some c)
    (h2 : AdvancementDataField.cleanType meta name w opts = some c') :
    (AdvancementField.initializeVal reg c).isSome = true ∧
    (AdvancementDataField.initializeVal meta name c').isSome = true := by
  obtain ⟨gs, rfl⟩ := advCleanType_obj reg opts v c h1
  exact ⟨advInit_obj_isSome reg gs, advDataInit_isSome meta name c'⟩

/-- Witness for C7, applied once with an unresolved discriminator (registry
miss, metadata miss) and once with a resolved one (registry hit, metadata
hit). -/
theorem advField_initializeVal_after_clean_total_witness :
    (AdvancementField.initializeVal reg0 (.obj fs0)).isSome = true ∧
    (AdvancementField.initializeVal reg0 (.obj [("cleaned", .boolean true)])).isSome = true ∧
    (AdvancementDataField.initializeVal meta0 "value"
      (.obj [("x", .num 1), ("y", .num 2)])).isSome = true ∧
    (AdvancementDataField.initializeVal metaM "value"
      (.obj [("cleaned", .boolean true)])).isSome = true := by
  have hu := advField_initializeVal_after_clean_total reg0 meta0 "value" opts0
    (.obj fs0) (.obj [("y", .num 2)]) (.obj fs0) (.obj [("x", .num 1), ("y", .num 2)])
    (by simp [AdvancementField.cleanType, typeofIsObject, getProp, fs0, reg0,
      AdvancementField.getModelForType, lookupKey])
    (by simp [AdvancementDataField.cleanType, AdvancementDataField.cleanTypeState,
      AdvancementDataField.getModel, AdvancementDataField.getDefaults, meta0, opts0,
      mergeObjectState, lookupKey, typeofIsObject, isFalsy, mergeInto, setKeyMerge, mergeVal])
  have hr := advField_initializeVal_after_clean_total reg0 metaM "value" opts0
    (.obj [("type", .str "grant")]) (.obj [("w", .num 3)])
    (.obj [("cleaned", .boolean true)]) (.obj [("cleaned", .boolean true)])
    (by simp [AdvancementField.cleanType, typeofIsObject, getProp, reg0,
      AdvancementField.getModelForType, lookupKey, advModel0])
    (by simp [AdvancementDataField.cleanType, AdvancementDataField.cleanTypeState,
      AdvancementDataField.getModel, metaM, lookupKey, typeofIsObject, advModel0])
  exact ⟨hu.1, hr.1, hu.2, hr.2⟩

/-- C4: `AdvancementDataField._cleanType` on an object raw value with no
registered data model returns the raw value unchanged under the partial
option, and otherwise returns the declared defaults merged with the raw
value; at every key the raw entry wins on conflicts (the merged entry is
`mergeVal default raw`, which equals the raw entry whenever the two are not
both objects, and recursively prefers raw leaves otherwise). -/
theorem advDataField_clean_defaults_merge
    (meta : AdvMetadata) (name : String) (opts : CleanOptions)
    (fs ds : List (String × JSValue))
    (hm : AdvancementDataField.getModel meta name = none)
    (hd : AdvancementDataField.getDefaults meta name = .obj ds)
    (hnd : (keysOf fs).Nodup) :
    (opts.isPartial = true →
      AdvancementDataField.cleanType meta name (.obj fs) opts = some (.obj fs)) ∧
    (opts.isPartial = false →
      AdvancementDataField.cleanType meta name (.obj fs) opts
        = some (.obj (mergeInto ds fs)) ∧
      ∀ k, lookupKey (mergeInto ds fs) k =
        match lookupKey fs k with
        | some w => some (mergeStep (lookupKey ds k) w)
        | none => lookupKey ds k) ∧
    (∀ v w, isPlainObj v = false ∨ isPlainObj w = false → mergeVal v w = w) := by
  refine ⟨?_, ?_, ?_⟩
  · intro hp
    simp [AdvancementDataField.cleanType, AdvancementDataField.cleanTypeState, hm, hp,
      typeofIsObject]
  · intro hp
    refine ⟨?_, fun k => lookupKey_mergeInto fs ds k hnd⟩
    simp [AdvancementDataField.cleanType, AdvancementDataField.cleanTypeState, hm, hp,
      hd, mergeObjectState, isFalsy, typeofIsObject]
  · intro v w hw
    cases v <;> cases w <;> simp [mergeVal, isPlainObj] at hw ⊢

/-- Witness for C4: defaults `{x: 1}`, raw `{y: 2}`; the partial option
passes the raw value through, the non-partial clean merges, and the merged
result keeps the default `x` and takes the raw `y`. -/
theorem advDataField_clean_defaults_merge_witness :
    AdvancementDataField.cleanType meta0 "value" (.obj [("y", .num 2)]) optsP
      = some (.obj [("y", .num 2)]) ∧
    AdvancementDataField.cleanType meta0 "value" (.obj [("y", .num 2)]) opts0
      = some (.obj [("x", .num 1), ("y", .num 2)]) ∧
    lookupKey (mergeInto [("x", .num 1)] [("y", .num 2)]) "y" = some (.num 2) ∧
    lookupKey (mergeInto [("x", .num 1)] [("y", .num 2)]) "x" = some (.num 1) := by
  have hP := advDataField_clean_defaults_merge meta0 "value" optsP
    [("y", .num 2)] [("x", .num 1)] rfl rfl (by decide)
  have h0 := advDataField_clean_defaults_merge meta0 "value" opts0
    [("y", .num 2)] [("x", .num 1)] rfl rfl (by decide)
  refine ⟨hP.1 rfl, ?_, ?_, ?_⟩
  · rw [(h0.2.1 rfl).1]
    simp [mergeInto, setKeyMerge, mergeVal]
  · have hy := (h0.2.1 rfl).2 "y"
    simpa [lookupKey, mergeStep] using hy
  · have hx := (h0.2.1 rfl).2 "x"
    simpa [lookupKey, mergeStep] using hx

/-- C5 counterexample: cleaning `{y: 2}` over the shared defaults `{x: 1}`
(no registered model, no partial option) leaves the defaults template holding
its original contents `{x: 1}`, which differ from the merged object the claim
says the template now contains. -/
theorem advDataField_defaults_not_mutated_counterexample :
    AdvancementDataField.cleanTypeState meta0 "value" (.obj [("y", .num 2)]) opts0
      = some (.obj [("x", .num 1), ("y", .num 2)], .obj [("x", .num 1)]) ∧
    (JSValue.obj [("x", .num 1)]) ≠ .obj [("x", .num 1), ("y", .num 2)] := by
  constructor
  · simp [AdvancementDataField.cleanTypeState, AdvancementDataField.getModel,
      AdvancementDataField.getDefaults, meta0, opts0, mergeObjectState, lookupKey,
      typeofIsObject, isFalsy, mergeInto, setKeyMerge, mergeVal]
  · simp

/-- C5 (amended): the defaults merge is performed with `{inplace: false}`, so
the shared defaults template object is left unchanged by cleaning — after
cleaning it holds its original contents, not the merged raw keys. -/
theorem advDataField_defaults_not_mutated_amended
    (meta : AdvMetadata) (name : String) (opts : CleanOptions)
    (fs ds : List (String × JSValue))
    (hm : AdvancementDataField.getModel meta name = none)
    (hp : opts.isPartial = false)
    (hd : AdvancementDataField.getDefaults meta name = .obj ds) :
    (AdvancementDataField.cleanTypeState meta name (.obj fs) opts).map Prod.snd
      = some (AdvancementDataField.getDefaults meta name) := by
  simp [AdvancementDataField.cleanTypeState, hm, hp, hd, mergeObjectState, isFalsy,
    typeofIsObject]

/-- Witness for the amended C5 at defaults `{x: 1}` and raw `{y: 2}`. -/
theorem advDataField_defaults_not_mutated_amended_witness :
    (AdvancementDataField.cleanTypeState meta0 "value"
      (.obj [("y", .num 2)]) opts0).map Prod.snd
      = some (AdvancementDataField.getDefaults meta0 "value") :=
  advDataField_defaults_not_mutated_amended meta0 "value" opts0
    [("y", .num 2)] [("x", .num 1)] rfl rfl rfl

/-- C2 (code evaluation at the failing input): `MappingField._cleanType`
discards the results of the per-entry `model.clean` calls, so for the
integer-coercing child field the entry at key `a` is still the string `"3"`
after cleaning, not the coerced number `3` — though indeed no key is added,
removed or renamed. -/
theorem mappingField_clean_discards_results :
    MappingField.cleanType intCoerceField [("a", .str "3"), ("b", .str "bad")] opts0
      = [("a", .str "3"), ("b", .str "bad")] ∧
    intCoerceField.clean (.str "3") opts0 = .num 3 ∧
    lookupKey (MappingField.cleanType intCoerceField
      [("a", .str "3"), ("b", .str "bad")] opts0) "a" ≠ some (.num 3) := by
  refine ⟨rfl, rfl, ?_⟩
  simp [MappingField.cleanType, lookupKey]

/-- C3: `MappingField._validateType` throws `Error("must be an Object")` on
any non-object raw value; on an object it validates every entry against the
child field definition and throws a `ModelValidationError` whose error map
holds exactly the keys of the failing entries, succeeding (no error) exactly
when every entry is valid. -/
theorem mappingField_validate_aggregate
    (m : DataFieldModel) (opts : CleanOptions) :
    (∀ v, isPlainObj v = false →
      MappingField.validateType m v opts = some (.err "must be an Object")) ∧
    (∀ fs, keysOf (MappingField.validateValues m fs opts)
      = keysOf (fs.filter fun p => (m.validate p.2 opts).isSome)) ∧
    (∀ fs, MappingField.validateType m (.obj fs) opts = none ↔
      ∀ p ∈ fs, m.validate p.2 opts = none) ∧
    (∀ fs, MappingField.validateValues m fs opts ≠ [] →
      MappingField.validateType m (.obj fs) opts
        = some (.modelValidation (MappingField.validateValues m fs opts))) := by
  refine ⟨?_, keysOf_validateValues m opts, ?_, ?_⟩
  · intro v hv
    cases v <;> simp [MappingField.validateType, isPlainObj] at hv ⊢
  · intro fs
    constructor
    · intro h
      rw [← validateValues_eq_nil_iff m opts fs]
      by_contra hne
      have hc : ¬ (MappingField.validateValues m fs opts).isEmpty = true := by
        simpa [List.isEmpty_iff] using hne
      simp [MappingField.validateType, hc] at h
    · intro h
      have hc : MappingField.validateValues m fs opts = [] :=
        (validateValues_eq_nil_iff m opts fs).mpr h
      simp [MappingField.validateType, hc]
  · intro fs hne
    have hc : ¬ (MappingField.validateValues m fs opts).isEmpty = true := by
      simpa [List.isEmpty_iff] using hne
    simp [MappingField.validateType, hc]

/-- Witness for C3: a non-object raw value, a mapping with one invalid entry
among three (error map exactly `["b"]`), and an all-valid mapping. -/
theorem mappingField_validate_aggregate_witness :
    MappingField.validateType intCoerceField (.str "x") opts0
      = some (.err "must be an Object") ∧
    MappingField.validateType intCoerceField
      (.obj [("a", .num 3), ("b", .str "bad"), ("c", .num 5)]) opts0
      = some (.modelValidation [("b", .err "must be an integer")]) ∧
    keysOf (MappingField.validateValues intCoerceField
      [("a", .num 3), ("b", .str "bad"), ("c", .num 5)] opts0) = ["b"] ∧
    MappingField.validateType intCoerceField (.obj [("a", .num 1)]) opts0 = none := by
  have main := mappingField_validate_aggregate intCoerceField opts0
  have hv : MappingField.validateValues intCoerceField
      [("a", .num 3), ("b", .str "bad"), ("c", .num 5)] opts0
      = [("b", .err "must be an integer")] := rfl
  refine ⟨main.1 (.str "x") rfl, ?_, ?_, ?_⟩
  · have h4 := main.2.2.2 [("a", .num 3), ("b", .str "bad"), ("c", .num 5)]
      (by rw [hv]; exact List.cons_ne_nil _ _)
    rw [h4, hv]
  · rw [hv]
    rfl
  · exact (main.2.2.1 [("a", .num 1)]).mpr (by
      intro p hp
      simp only [List.mem_singleton] at hp
      subst hp
      rfl)

/-- C6: `MappingField.getInitialValue` with configured `initialKeys` and an
empty declared initial object returns a mapping with exactly the configured
keys in list order, each seeded with the child field's initial value (or its
transformation by the configured producer callback); with no `initialKeys`,
or a non-empty declared initial value, the initial value is returned
untouched. -/
theorem mappingField_getInitialValue_seeds
    (f : MappingFieldModel) (ks : List String) :
    (f.initialKeys = some ks → ks.Nodup → f.initial = .obj [] →
      MappingField.getInitialValue f
        = some (.obj (ks.map fun k => (k, MappingField.seedValue f k)))) ∧
    (f.initialValue = none →
      ∀ k, MappingField.seedValue f k = f.model.getInitialValue) ∧
    (f.initialKeys = none → MappingField.getInitialValue f = some f.initial) ∧
    (isEmptyJS f.initial = false → MappingField.getInitialValue f = some f.initial) := by
  refine ⟨?_, ?_, ?_, ?_⟩
  · intro hk hnd hinit
    simp only [MappingField.getInitialValue, hk, hinit, isEmptyJS, List.isEmpty_nil]
    rw [foldl_setKeyAssign (fun k => MappingField.seedValue f k) ks [] hnd
      (fun k _ => rfl)]
    simp
  · intro hcb k
    simp [MappingField.seedValue, hcb]
  · intro hk
    simp [MappingField.getInitialValue, hk]
  · intro hne
    cases hk : f.initialKeys with
    | none => simp [MappingField.getInitialValue, hk]
    | some ks2 => simp [MappingField.getInitialValue, hk, hne]

/-- Witness for C6: `mapField0` (keys `["str", "dex"]`, empty initial, no
callback) seeds exactly those keys, in order, with the child initial `0`;
`mapField1` (non-empty declared initial) and `mapField2` (no `initialKeys`)
return the declared initial untouched. -/
theorem mappingField_getInitialValue_seeds_witness :
    MappingField.getInitialValue mapField0
      = some (.obj [("str", .num 0), ("dex", .num 0)]) ∧
    MappingField.seedValue mapField0 "str" = .num 0 ∧
    MappingField.getInitialValue mapField1 = some mapField1.initial ∧
    MappingField.getInitialValue mapField2 = some mapField2.initial := by
  have main := mappingField_getInitialValue_seeds mapField0 ["str", "dex"]
  have m1 := mappingField_getInitialValue_seeds mapField1 ["a"]
  have m2 := mappingField_getInitialValue_seeds mapField2 []
  refine ⟨?_, (main.2.1 rfl) "str", m1.2.2.2 rfl, m2.2.2.1 rfl⟩
  rw [main.1 rfl (by decide) rfl]
  simp [MappingField.seedValue, mapField0, intCoerceField]

/-- C9: a deterministic-configured formula field rejects any formula
containing a dice term with the error "must not contain dice terms", and
accepts any dice-free formula whose safe evaluation succeeds. -/
theorem formulaField_deterministic_rejects_dice (r : RollTerm) :
    (containsDice r = true →
      FormulaField.validateType true r
        = some (.err "must not contain dice terms")) ∧
    (containsDice r = false → (safeEval r).isSome = true →
      FormulaField.validateType true r = none) := by
  constructor
  · intro h
    simp [FormulaField.validateType, isDeterministicRoll, h]
  · intro h hev
    obtain ⟨n, hn⟩ := Option.isSome_iff_exists.mp hev
    simp [FormulaField.validateType, isDeterministicRoll, h, hn]

/-- Witness for C9: `1d6 + 2` is rejected with the dice-term error while the
arithmetic-only `@ability.mod + 2` validates successfully. -/
theorem formulaField_deterministic_rejects_dice_witness :
    FormulaField.validateType true (.add (.dice 1 6) (.num 2))
      = some (.err "must not contain dice terms") ∧
    FormulaField.validateType true (.add (.ref "ability.mod") (.num 2)) = none :=
  ⟨(formulaField_deterministic_rejects_dice _).1 (by decide),
    (formulaField_deterministic_rejects_dice _).2 (by decide) (by decide)⟩
